import Mathlib

/-!
Verification of the student-support multi-agent platform
(`student_support_adk/student_support/`) against its natural-language
specification.  The Python source is shallowly embedded: pure functions
become Lean functions, the mutable session store becomes explicit state
passing over `Store`, exceptions become `Except String`, machine floats
used only as small exact fractions become `ℚ`, and the nondeterministic
thread-completion order of `ParallelAgent.handle` becomes an explicit
permutation parameter.
-/

namespace StudentSupport

/-! ## String preliminaries (models of the Python string operations used) -/

/-- Model of Python `str.lower` (ASCII case folding, which covers every
string constant appearing in the source). -/
def pyLower (s : String) : String := ⟨s.data.map Char.toLower⟩

/-- Model of Python `str.strip`: drop leading and trailing whitespace. -/
def pyStrip (s : String) : String :=
  ⟨((s.data.dropWhile Char.isWhitespace).reverse.dropWhile Char.isWhitespace).reverse⟩

/-- Tokenizer loop behind `splitWS`: `cur` is the (reversed) token being
accumulated. -/
def wsTokens : List Char → List Char → List String
  | [], cur => if cur = [] then [] else [⟨cur.reverse⟩]
  | c :: rest, cur =>
      if c.isWhitespace then
        if cur = [] then wsTokens rest [] else ⟨cur.reverse⟩ :: wsTokens rest []
      else wsTokens rest (c :: cur)

/-- Model of Python `str.split()` with no argument: split on whitespace
runs, discarding empty pieces. -/
def splitWS (s : String) : List String := wsTokens s.data []

/-- `isPref p l` holds when `p` is an initial segment of `l`
(model of Python `str.startswith` on character lists). -/
def isPref : List Char → List Char → Bool
  | [], _ => true
  | _ :: _, [] => false
  | p :: ps, c :: cs => p = c && isPref ps cs

/-- Model of the Python `in` substring test: `hasSub hay pat` holds when
`pat` occurs contiguously inside `hay`. -/
def hasSub : List Char → List Char → Bool
  | h, p => if isPref p h then true else
      match h with
      | [] => false
      | _ :: t => hasSub t p

/-- Substring test on `String`, lifting `hasSub`. -/
def strHasSub (hay pat : String) : Bool := hasSub hay.data pat.data

/-! ## Decimal rendering of naturals

Models the Python f-string interpolation of `int(datetime.utcnow().timestamp())`
inside `MemoryStore.create_session`. -/

/-- The decimal digit character for `d` (`d < 10` in every use). -/
def digitChar : Nat → Char
  | 0 => '0' | 1 => '1' | 2 => '2' | 3 => '3' | 4 => '4'
  | 5 => '5' | 6 => '6' | 7 => '7' | 8 => '8' | 9 => '9'
  | _ => '0'

/-- Decimal rendering of a natural number, most significant digit first. -/
def natDecimal (n : Nat) : List Char :=
  if _h : n < 10 then [digitChar n]
  else natDecimal (n / 10) ++ [digitChar (n % 10)]
  decreasing_by exact Nat.div_lt_self (by omega) (by omega)

/-- Value read back from a digit list (decimal, most significant first). -/
def decValue (l : List Char) : Nat :=
  l.foldl (fun a c => 10 * a + (c.toNat - 48)) 0

/-! ## The session store (`memory.py`, class `MemoryStore`)

The JSON-backed dictionary `self._data["sessions"]` is modelled as a
function from session ids to optional session records; `_flush` is pure
I/O and is not part of the observable state semantics. -/

/-- One entry of a session's `history` list
(the dict `{"ts": ..., "role": ..., "text": ...}`). -/
structure HEntry where
  ts : Nat
  role : String
  text : String
  deriving DecidableEq

/-- A session record as created by `MemoryStore.create_session`. -/
structure Session where
  username : String
  history : List HEntry
  state : List (String × String)
  created : Nat
  deriving DecidableEq

/-- The `sessions` table of the store. -/
def Store : Type := String → Option Session

/-- The store with no sessions. -/
def emptyStore : Store := fun _ => none

/-- Point update of the sessions table (dict assignment). -/
def storeSet (sid : String) (s : Session) (st : Store) : Store :=
  fun x => if x = sid then some s else st x

/-- The session id built by `create_session`:
`f"sess_{username}_{int(datetime.utcnow().timestamp())}"`, with the
whole-second timestamp passed explicitly. -/
def sessId (username : String) (now : Nat) : String :=
  "sess_" ++ username ++ "_" ++ ⟨natDecimal now⟩

/-- `MemoryStore.create_session`: registers a fresh record under
`sessId username now` and returns the id together with the new store. -/
def create_session (st : Store) (username : String) (now : Nat) : String × Store :=
  let sid := sessId username now
  (sid, storeSet sid ⟨username, [], [], now⟩ st)

/-- Python `history[-10:]`: the at-most-ten most recent entries. -/
def lastTen (l : List HEntry) : List HEntry := l.drop (l.length - 10)

/-- `MemoryStore.append_history`: raises `KeyError("unknown session")` on
an unknown id, otherwise appends the entry and keeps the last ten. -/
def append_history (st : Store) (sid : String) (role text : String) (now : Nat) :
    Except String Store :=
  match st sid with
  | none => .error "unknown session"
  | some s =>
      .ok (storeSet sid { s with history := lastTen (s.history ++ [⟨now, role, text⟩]) } st)

/-- `MemoryStore.get_session`: a plain dictionary `.get`. -/
def get_session (st : Store) (sid : String) : Option Session := st sid

/-- Association-list update used to model `s["state"][key] = value`. -/
def assocSet (k v : String) : List (String × String) → List (String × String)
  | [] => [(k, v)]
  | (k', v') :: t => if k' = k then (k, v) :: t else (k', v') :: assocSet k v t

/-- `MemoryStore.set_session_field`: raises `KeyError("unknown session")`
on an unknown id, otherwise updates the state mapping. -/
def set_session_field (st : Store) (sid : String) (key value : String) :
    Except String Store :=
  match st sid with
  | none => .error "unknown session"
  | some s => .ok (storeSet sid { s with state := assocSet key value s.state } st)

/-- A whole sequence of `append_history` calls on one session. -/
def append_all (st : Store) (sid : String) (es : List HEntry) : Except String Store :=
  es.foldlM (fun st e => append_history st sid e.role e.text e.ts) st

/-! ## Tools (`tools.py`, class `Tools`) -/

/-- The student-record table (`student_db`), one flat string mapping per
username. -/
def StudentDB : Type := List (String × List (String × String))

/-- `Tools.csv_lookup`: empty record for a falsy or absent username. -/
def csv_lookup (db : StudentDB) (username : String) : List (String × String) :=
  if username = "" then [] else (db.lookup username).getD []

/-- A Python `\w` word character (ASCII fragment, which covers the
source's constants). -/
def isWordChar (c : Char) : Bool := c.isAlphanum || c = '_'

/-- `Tools._normalize`: lower-case, replace non-word non-space characters
by spaces, collapse whitespace runs, strip. -/
def normalize (text : String) : String :=
  let t := pyLower text
  let t2 : String := ⟨t.data.map (fun c => if isWordChar c || c.isWhitespace then c else ' ')⟩
  " ".intercalate (splitWS t2)

/-- The fixed FAQ table inside `Tools.google_search`. -/
def gsFaqs : List (String × String) :=
  [("how to take exam", "Open LockDown Browser, go to module, click Start Exam."),
   ("ms365", "Sign in at portal.office.com using your college email."),
   ("how to login", "Use your college username and password; reset via the portal if needed.")]

/-- Python `set(...)` of the whitespace tokens of a string, as a
duplicate-free list in first-occurrence order. -/
def tokenSet (s : String) : List String := (splitWS s).dedup

/-- Size of the intersection of two token sets. -/
def interSize (qt kt : List String) : Nat := (qt.filter (fun t => t ∈ kt)).length

/-- The scoring loop of `Tools.google_search`: returns an early exact-match
answer (score 1.0) if one is hit, plus the running best score and answer. -/
def gsLoop (qtokens : List String) :
    List (String × String) → ℚ → Option String → Option String × ℚ × Option String
  | [], bs, ba => (none, bs, ba)
  | (k, v) :: rest, bs, ba =>
      let ktoks := tokenSet (normalize k)
      if ktoks = [] then gsLoop qtokens rest bs ba
      else
        let score : ℚ := mkRat (interSize qtokens ktoks) (max ktoks.length 1)
        let bs' := if bs < score then score else bs
        let ba' := if bs < score then some v else ba
        if score = 1 then (some v, bs', ba') else gsLoop qtokens rest bs' ba'

/-- The substring fallback at the end of `Tools.google_search`. -/
def gsSubFallback (qnorm : String) : String :=
  match gsFaqs.find? (fun kv => strHasSub qnorm (normalize kv.1)) with
  | some kv => kv.2
  | none => "No direct FAQ hit. Try specifics or provide username."

/-- `Tools.google_search` (pure: the FAQ table is a literal in the source). -/
def google_search (query : String) : String :=
  let qnorm := normalize query
  if qnorm = "" then "No query provided."
  else
    let qtokens := tokenSet qnorm
    let r := gsLoop qtokens gsFaqs 0 none
    match r.1 with
    | some v => v
    | none =>
        if mkRat 1 2 ≤ r.2.1 then
          match r.2.2 with
          | some a => a
          | none => gsSubFallback qnorm
        else gsSubFallback qnorm

/-! ## Leaf agents (`agents.py`)

The LLM client is the external collaborator of the spec: a total function
from prompt to response.  Leaf `handle` bodies return `Except`: `.error`
marks a raised Python exception. -/

/-- The message of the `TypeError` raised by subscripting `None`
(`get_session(sid)["username"]` when the session id is unknown). -/
def tyErrNone : String := "\x27NoneType\x27 object is not subscriptable"

/-- `OrientationAgent.handle`. -/
def orientation_handle (llm : String → String) (db : StudentDB) (st : Store)
    (sid message : String) : Except String String :=
  match get_session st sid with
  | none => .error tyErrNone
  | some s =>
      let r := csv_lookup db s.username
      if pyLower ((r.lookup "orientation_done").getD "no") = "yes" then
        .ok "You have completed the orientation. Check the Orientation module for your certificate."
      else
        .ok (llm ("orientation steps for user " ++ s.username ++ ": " ++ message))

/-- `TechSupportAgent.handle`. -/
def techsupport_handle (llm : String → String) (_sid message : String) :
    Except String String :=
  let m := pyLower message
  if strHasSub m "lockdown" || strHasSub m "respondus" then
    .ok (llm "lockdown browser steps")
  else if strHasSub m "ms365" || strHasSub m "office" then
    .ok (google_search "ms365")
  else if strHasSub m "can\x27t login" || strHasSub m "forgot password" then
    .ok "Try resetting your password via the college portal password reset flow. If that fails, contact helpdesk@example.com."
  else
    .ok (llm message)

/-- `ProgressAgent.handle`. -/
def progress_handle (llm : String → String) (db : StudentDB) (st : Store)
    (sid message : String) : Except String String :=
  let m := pyLower message
  if strHasSub m "access code" then
    match get_session st sid with
    | none => .error tyErrNone
    | some s =>
        let r := csv_lookup db s.username
        let code := (r.lookup "access_codes").getD ""
        if code ≠ "" then .ok ("Your access code: " ++ code)
        else .ok "No access code on file. Please verify username."
  else if ["activated", "activate", "course status", "activated?"].any
      (fun tok => strHasSub m tok) then
    .ok "I can check your course activation status if you give me the course name."
  else
    .ok (llm message)

/-- `FAQAgent.handle`. -/
def faq_handle (_sid message : String) : Except String String :=
  .ok (google_search message)

/-! ## Composite agents (`agents.py`) -/

/-- An agent value: anything exposing `handle(sid, message)`; `.error`
marks a raised exception. -/
structure AgentM where
  handle : String → String → Except String String

/-- The fixed separator of `ParallelAgent.handle`. -/
def agentSep : String := "\n---\n"

/-- The thread body `run_agent` of `ParallelAgent.handle`: catches the
member's exception and substitutes the inline error string. -/
def runMember (a : AgentM) (sid message : String) : String :=
  match a.handle sid message with
  | .ok r => r
  | .error e => "Agent error: " ++ e

/-- `ParallelAgent.handle`.  Each member thread appends its result to the
shared `results` list under the lock in the order the threads complete;
`order` is that completion order, an arbitrary permutation of the member
indices.  The joined string follows `order`. -/
def parallel_handle (agents : List AgentM) (sid message : String)
    (order : List (Fin agents.length)) : String :=
  String.intercalate agentSep (order.map fun i => runMember (agents.get i) sid message)

/-- `SequentialAgent.handle`: threads the message through the members,
propagating any member exception. -/
def sequential_handle (agents : List AgentM) (sid message : String) :
    Except String String :=
  agents.foldlM (fun state a => a.handle sid state) message

/-! ## Long-running job manager (`longrunning.py`) -/

/-- The `status` value of a registered job. -/
inductive JobStatus
  | running
  | paused
  | done
  | failed
  deriving DecidableEq

/-- The `jobs` table of `LongRunningManager`. -/
def Jobs : Type := String → Option JobStatus

/-- An empty job table. -/
def emptyJobs : Jobs := fun _ => none

/-- Point update of the job table. -/
def jobsSet (job_id : String) (st : JobStatus) (j : Jobs) : Jobs :=
  fun x => if x = job_id then some st else j x

/-- `LongRunningManager.pause_job`: any registered job is flipped to
`paused`, whatever its current status. -/
def pause_job (jobs : Jobs) (job_id : String) : Bool × Jobs :=
  match jobs job_id with
  | some _ => (true, jobsSet job_id .paused jobs)
  | none => (false, jobs)

/-- `LongRunningManager.resume_job`: only a `paused` job is flipped back
to `running`. -/
def resume_job (jobs : Jobs) (job_id : String) : Bool × Jobs :=
  match jobs job_id with
  | some st => if st = .paused then (true, jobsSet job_id .running jobs) else (false, jobs)
  | none => (false, jobs)

/-- The status strings returned by `get_status`. -/
def statusStr : JobStatus → String
  | .running => "running"
  | .paused => "paused"
  | .done => "done"
  | .failed => "failed"

/-- `LongRunningManager.get_status`. -/
def get_status (jobs : Jobs) (job_id : String) : String :=
  match jobs job_id with
  | none => "not_found"
  | some st => statusStr st

/-! ## The fuzzy matcher (`main.py`, `best_kb_match`)

`difflib.SequenceMatcher(None, a, b).ratio()` is embedded directly.  The
KB questions (the second sequence) are all far shorter than 200
characters, so difflib's autojunk never fires and the ratio is the plain
recursive matching-blocks computation: find the longest common block
(earliest in `a`, then earliest in `b`, among the longest), recurse left
and right of it, and divide twice the total matched size by the total
length.  Scores are exact rationals; every score reachable here has a
small denominator, so the comparison with the 0.6 cutoff agrees with the
source's float comparison. -/

/-- Best block found so far: start in `a`, start in `b`, size. -/
structure FLMBest where
  bi : Nat
  bj : Nat
  sz : Nat
  deriving DecidableEq

/-- One dynamic-programming row: entry `j` is the length of the longest
common suffix of the processed prefix of `a` and `b[0..j]`. -/
def flmRow (ai : Char) (b : List Char) (prev : List Nat) : List Nat :=
  (b.zip (0 :: prev)).map (fun p => if p.1 = ai then p.2 + 1 else 0)

/-- Scan a row, keeping the first block reaching each new best size
(difflib's tie-break: strict improvement, scan order by `i` then `j`). -/
def flmScanRow (i : Nat) (row : List Nat) (best : FLMBest) : FLMBest :=
  row.enum.foldl
    (fun best jk => if best.sz < jk.2 then ⟨i + 1 - jk.2, jk.1 + 1 - jk.2, jk.2⟩ else best)
    best

/-- Row-by-row driver over `a`. -/
def flmGo (b : List Char) : List Char → Nat → List Nat → FLMBest → FLMBest
  | [], _, _, best => best
  | ai :: arest, i, prev, best =>
      let row := flmRow ai b prev
      flmGo b arest (i + 1) row (flmScanRow i row best)

/-- `SequenceMatcher.find_longest_match` over the whole ranges (no junk). -/
def findLongestMatch (a b : List Char) : FLMBest :=
  flmGo b a 0 (List.replicate b.length 0) ⟨0, 0, 0⟩

/-- Total size of all matching blocks (`get_matching_blocks`), with a fuel
argument: each recursion level removes a block of size at least one, so
`a.length + b.length + 1` units of fuel always suffice. -/
def matchTotal : Nat → List Char → List Char → Nat
  | 0, _, _ => 0
  | fuel + 1, a, b =>
      let r := findLongestMatch a b
      if r.sz = 0 then 0
      else r.sz + matchTotal fuel (a.take r.bi) (b.take r.bj)
             + matchTotal fuel (a.drop (r.bi + r.sz)) (b.drop (r.bj + r.sz))

/-- `SequenceMatcher.ratio`: `2 * M / (len(a) + len(b))` as an exact
rational (never called on two empty sequences by the source). -/
def dratio (a b : List Char) : ℚ :=
  mkRat (2 * matchTotal (a.length + b.length + 1) a b) (a.length + b.length)

/-- One knowledge-base entry (`{"q": ..., "a": ...}`). -/
structure KBEntry where
  q : String
  a : String
  deriving DecidableEq

/-- The static `LOCAL_KB` table of `main.py`. -/
def LOCAL_KB : List (String × List KBEntry) :=
  [("OrientationAgent",
    [⟨"how can i start?",
      "To start: login to your LMS dashboard → open the Orientation module → complete lessons and the short quiz. If you can\x27t find it, provide your username."⟩,
     ⟨"how do i take the orientation?",
      "Open Dashboard → Orientation → Start Module. Complete each lesson and the orientation assessment to be marked complete."⟩,
     ⟨"where is the orientation module?",
      "Orientation is listed under \x27My Courses\x27 or \x27Course Modules\x27. If missing, provide your username and I\x27ll check enrollment."⟩,
     ⟨"do i need ms office?",
      "No. The course is browser-based. You can use MS365 online if you want to practice offline files."⟩]),
   ("TechSupportAgent",
    [⟨"i need access code",
      "Please give your username. We\x27ll look for an access code on file or generate/escalate one for you."⟩,
     ⟨"i can\x27t log in",
      "Try \x27Forgot password\x27 link. If that fails, give your username and any error text (e.g., \x27access denied\x27) and we\x27ll check activation."⟩,
     ⟨"how do i install lockdown browser?",
      "Download the LockDown Browser installer from the LMS Help link, run the installer and then log in to the browser with your LMS credentials."⟩,
     ⟨"access denied error",
      "This usually means your account isn\x27t activated. Provide username and we will resend activation or escalate to support."⟩]),
   ("ProgressAgent",
    [⟨"show my progress",
      "Provide your username and I will return modules completed, percent complete, and pending quizzes."⟩,
     ⟨"where am i in my course?",
      "You are currently on module X. Provide username for exact module name and percent complete."⟩,
     ⟨"how much percent completed?",
      "Percent complete is computed as (completed lessons / total lessons) * 100. Provide username for exact figure."⟩]),
   ("FAQAgent",
    [⟨"what is the refund policy?",
      "Refunds: allowed within 7 days of enrollment if < 10% course completed. Contact support with your username to submit a request."⟩,
     ⟨"what are class timings?",
      "Course is self-paced. Live office hours: Monday & Thursday 7–9 PM (local)."⟩,
     ⟨"how long is the course?",
      "Typical 8–12 weeks depending on learner pace."⟩,
     ⟨"do i get a certificate?",
      "Yes — on 100% completion and passing the final assessment."⟩]),
   ("ErrorAgent",
    [⟨"server error",
      "Please copy the full error message and approximate time; we\x27ll check server logs."⟩,
     ⟨"app crashed",
      "Try clearing browser cache and reloading. If it persists, tell us steps to reproduce and browser/version."⟩])]

/-- `LOCAL_KB.get(cname, [])`. -/
def kbEntriesFor (name : String) : List KBEntry := (LOCAL_KB.lookup name).getD []

/-- Python `agent_name.replace("Agent", "")`: removes every
(left-to-right, non-overlapping) occurrence, not just a suffix. -/
def replaceAgentAllL : List Char → List Char
  | 'A' :: 'g' :: 'e' :: 'n' :: 't' :: rest => replaceAgentAllL rest
  | c :: rest => c :: replaceAgentAllL rest
  | [] => []

/-- String form of `replaceAgentAllL`. -/
def replaceAgentAll (s : String) : String := ⟨replaceAgentAllL s.data⟩

/-- Python `agent_name.endswith("Agent")`. -/
def endsWithAgent (s : String) : Bool := isPref "Agent".data.reverse s.data.reverse

/-- The dedup loop over candidate names: keeps first occurrences and
drops empty strings (`if c and c not in seen`). -/
def dedupNE : List String → List String → List String
  | [], _ => []
  | c :: rest, seen =>
      if c = "" ∨ c ∈ seen then dedupNE rest seen else c :: dedupNE rest (c :: seen)

/-- The candidate agent-name list built by `best_kb_match`: the name
as-is; with `"Agent"` appended when it does not already end in it; with
every occurrence of `"Agent"` removed when it does end in it. -/
def finalCandidates (agent_name : String) : List String :=
  dedupNE (agent_name ::
    ((if endsWithAgent agent_name then [] else [agent_name ++ "Agent"]) ++
     (if endsWithAgent agent_name then [replaceAgentAll agent_name] else []))) []

/-- The candidate list as the claim words it: name as-is, name with
`"Agent"` appended, name with the `"Agent"` suffix stripped, in that
order, deduplicated. -/
def stripAgentSuffix (s : String) : String :=
  if endsWithAgent s then ⟨s.data.take (s.data.length - 5)⟩ else s

/-- Candidate construction following the claim text. -/
def claimCandidates (agent_name : String) : List String :=
  dedupNE [agent_name, agent_name ++ "Agent", stripAgentSuffix agent_name] []

/-- Score of a KB entry against the normalized message. -/
def kbScore (mnorm : String) (e : KBEntry) : ℚ := dratio mnorm.data (pyLower e.q).data

/-- The running-best loop of `best_kb_match` (strict improvement keeps
the first of equal scores), generic in the scoring function. -/
def scanBest {α : Type} (f : α → ℚ) : List α → Option α × ℚ → Option α × ℚ
  | [], acc => acc
  | e :: rest, (best, bs) =>
      if bs < f e then scanBest f rest (some e, f e) else scanBest f rest (best, bs)

/-- Maximum of the scores of a list (with a floor `init`). -/
def foldMax {α : Type} (f : α → ℚ) (l : List α) (init : ℚ) : ℚ :=
  l.foldl (fun acc e => max acc (f e)) init

/-- The token-overlap fallback of `best_kb_match`: first entry (candidate
lists in order) sharing at least one whitespace token with the message. -/
def tokenFallback (mnorm : String) (cands : List String) : Option String :=
  let tokens := splitWS mnorm
  ((cands.flatMap kbEntriesFor).find? (fun e =>
      !tokens.isEmpty && tokens.any (fun t => (splitWS (pyLower e.q)).contains t))).map
    KBEntry.a

/-- `best_kb_match` of `main.py` (cutoff fixed at its default `0.6`). -/
def best_kb_match (agent_name message : String) : Option String :=
  if message = "" then none
  else
    let mnorm := pyLower (pyStrip message)
    let cands := finalCandidates agent_name
    let entries := cands.flatMap kbEntriesFor
    let p := scanBest (kbScore mnorm) entries (none, 0)
    match p.1 with
    | some e => if mkRat 3 5 ≤ p.2 then some e.a else tokenFallback mnorm cands
    | none => tokenFallback mnorm cands

/-- The matcher as the claim describes it, generic in the candidate
construction: take the highest score over all candidate entries; when it
reaches the 0.6 threshold return the answer of the first entry attaining
it; otherwise fall back to token overlap. -/
def kb_match_described (cands : String → List String) (agent_name message : String) :
    Option String :=
  if message = "" then none
  else
    let mnorm := pyLower (pyStrip message)
    let cs := cands agent_name
    let entries := cs.flatMap kbEntriesFor
    let m := foldMax (kbScore mnorm) entries 0
    if mkRat 3 5 ≤ m then
      (entries.find? (fun e => decide (m ≤ kbScore mnorm e))).map KBEntry.a
    else tokenFallback mnorm cs

/-- The claim's algorithm verbatim (suffix-stripped candidate). -/
def best_kb_match_claim : String → String → Option String :=
  kb_match_described claimCandidates

/-- The claim amended to the source's candidate construction. -/
def best_kb_match_amended : String → String → Option String :=
  kb_match_described finalCandidates

/-! ## The generic-reply classifier (`main.py`, `_looks_generic_assistant`) -/

/-- The fixed set of generic framing phrases. -/
def genericPhrases : List String :=
  ["i can", "here are", "sure", "happy to", "i\x27m here to", "i can help",
   "please provide", "you can"]

/-- `_looks_generic_assistant`. -/
def looks_generic_assistant (text : String) : Bool :=
  if text = "" then true
  else
    let t := pyLower text
    if genericPhrases.any (fun p => strHasSub t p) then true
    else if (splitWS text).length ≤ 20 ∧ 0 < text.length then true
    else false

/-! ## Concrete test fixtures -/

/-- Whether a leaf call returned normally (no exception raised). -/
def isOkE (x : Except String String) : Bool :=
  match x with
  | .ok _ => true
  | .error _ => false

/-- A member agent that answers `"alpha"` immediately. -/
def agentA : AgentM := ⟨fun _ _ => .ok "alpha"⟩

/-- A member agent that answers `"beta"` (e.g. after a long sleep: the
model ranges over every completion order). -/
def agentB : AgentM := ⟨fun _ _ => .ok "beta"⟩

/-- A member agent whose `handle` raises with message `"boom"`. -/
def agentBoom : AgentM := ⟨fun _ _ => .error "boom"⟩

/-! ## Helper lemmas -/

theorem digitChar_toNat {d : Nat} (h : d < 10) : (digitChar d).toNat = 48 + d := by
  interval_cases d <;> rfl

theorem digitChar_ne_underscore (d : Nat) : digitChar d ≠ '_' := by
  unfold digitChar
  split <;> decide

theorem decValue_append (l : List Char) (c : Char) :
    decValue (l ++ [c]) = 10 * decValue l + (c.toNat - 48) := by
  unfold decValue
  rw [List.foldl_append]
  rfl

theorem decValue_natDecimal (n : Nat) : decValue (natDecimal n) = n := by
  induction n using Nat.strong_induction_on with
  | _ n ih =>
    unfold natDecimal
    split
    · next h =>
      show decValue [digitChar n] = n
      unfold decValue
      simp [List.foldl, digitChar_toNat h]
    · next h =>
      rw [decValue_append, ih (n / 10) (Nat.div_lt_self (by omega) (by omega)),
        digitChar_toNat (Nat.mod_lt _ (by omega))]
      omega

theorem natDecimal_injective {a b : Nat} (h : natDecimal a = natDecimal b) : a = b := by
  have := congrArg decValue h
  rwa [decValue_natDecimal, decValue_natDecimal] at this

theorem natDecimal_no_underscore (n : Nat) : ∀ c ∈ natDecimal n, c ≠ '_' := by
  induction n using Nat.strong_induction_on with
  | _ n ih =>
    unfold natDecimal
    split
    · intro c hc
      simp only [List.mem_singleton] at hc
      subst hc
      exact digitChar_ne_underscore n
    · intro c hc
      rcases List.mem_append.1 hc with h1 | h2
      · exact ih (n / 10) (Nat.div_lt_self (by omega) (by omega)) c h1
      · simp only [List.mem_singleton] at h2
        subst h2
        exact digitChar_ne_underscore _

theorem first_sep_unique {α : Type} {x : α} :
    ∀ (a1 a2 b1 b2 : List α), (∀ c ∈ a1, c ≠ x) → (∀ c ∈ a2, c ≠ x) →
      a1 ++ x :: b1 = a2 ++ x :: b2 → a1 = a2 ∧ b1 = b2 := by
  intro a1
  induction a1 with
  | nil =>
    intro a2 b1 b2 _ h2 he
    cases a2 with
    | nil => simpa using he
    | cons c t =>
      simp only [List.nil_append, List.cons_append, List.cons.injEq] at he
      exact absurd he.1.symm (h2 c (List.mem_cons_self c t))
  | cons c t ih =>
    intro a2 b1 b2 h1 h2 he
    cases a2 with
    | nil =>
      simp only [List.cons_append, List.nil_append, List.cons.injEq] at he
      exact absurd he.1 (h1 c (List.mem_cons_self c t))
    | cons c2 t2 =>
      simp only [List.cons_append, List.cons.injEq] at he
      have hr := ih t2 b1 b2 (fun d hd => h1 d (List.mem_cons_of_mem _ hd))
        (fun d hd => h2 d (List.mem_cons_of_mem _ hd)) he.2
      exact ⟨by rw [he.1, hr.1], hr.2⟩

theorem last_sep_unique {α : Type} {x : α} (u1 u2 d1 d2 : List α)
    (hd1 : ∀ c ∈ d1, c ≠ x) (hd2 : ∀ c ∈ d2, c ≠ x)
    (he : u1 ++ x :: d1 = u2 ++ x :: d2) : u1 = u2 ∧ d1 = d2 := by
  have hrev := congrArg List.reverse he
  simp only [List.reverse_append, List.reverse_cons, List.append_assoc,
    List.singleton_append] at hrev
  have hr := first_sep_unique d1.reverse d2.reverse u1.reverse u2.reverse
    (fun c hc => hd1 c (List.mem_reverse.1 hc))
    (fun c hc => hd2 c (List.mem_reverse.1 hc)) hrev
  exact ⟨List.reverse_injective hr.2, List.reverse_injective hr.1⟩

theorem drop_append_len {α : Type} :
    ∀ (l1 l2 : List α) (i : Nat), (l1 ++ l2).drop (l1.length + i) = l2.drop i := by
  intro l1
  induction l1 with
  | nil => intro l2 i; simp
  | cons c t ih => intro l2 i; simp [Nat.succ_add, ih l2 i]

theorem storeSet_get (sid : String) (s : Session) (st : Store) :
    storeSet sid s st sid = some s := by
  simp [storeSet]

theorem lastTen_length_le (l : List HEntry) : (lastTen l).length ≤ 10 := by
  unfold lastTen
  rw [List.length_drop]
  omega

theorem lastTen_of_le {l : List HEntry} (h : l.length ≤ 10) : lastTen l = l := by
  unfold lastTen
  have : l.length - 10 = 0 := by omega
  rw [this, List.drop_zero]

theorem lastTen_lastTen_append (x y : List HEntry) :
    lastTen (lastTen x ++ y) = lastTen (x ++ y) := by
  by_cases h : x.length ≤ 10
  · rw [lastTen_of_le h]
  · unfold lastTen
    have h1 : (x.drop (x.length - 10) ++ y).length - 10 = y.length := by
      simp only [List.length_append, List.length_drop]
      omega
    have h2 : (x ++ y).length - 10 = (x.length - 10) + y.length := by
      simp only [List.length_append]
      omega
    rw [h1, h2, ← List.drop_drop,
      List.drop_append_of_le_length (show x.length - 10 ≤ x.length by omega)]

/-! ## C10: the empty sequential composite is the identity -/

/-- C10: `SequentialAgent` built from the empty agent list returns the
input message unchanged (no exception) for every session id and message. -/
theorem c10_sequential_empty_identity (sid message : String) :
    sequential_handle [] sid message = .ok message := rfl

/-! ## C5: store operations on unknown session ids -/

/-- C5 counterexample: on an id unknown to the store, `append_history`
and `set_session_field` raise `KeyError("unknown session")` — they do not
report a typed not-found outcome, contrary to the claim. -/
theorem c5_counterexample :
    append_history emptyStore "ghost" "user" "hello" 0 = .error "unknown session" ∧
    set_session_field emptyStore "ghost" "k" "v" = .error "unknown session" :=
  ⟨rfl, rfl⟩

/-- C5 amended: on an unknown session id, `get_session` returns the typed
not-found value `None` without raising, while `append_history` and
`set_session_field` raise `KeyError("unknown session")`. -/
theorem c5_unknown_session_ops (st : Store) (sid role text key value : String)
    (now : Nat) (h : st sid = none) :
    get_session st sid = none ∧
    append_history st sid role text now = .error "unknown session" ∧
    set_session_field st sid key value = .error "unknown session" := by
  refine ⟨h, ?_, ?_⟩ <;> simp [append_history, set_session_field, h]

/-- C5 witness: the amended statement at a concrete store and id. -/
theorem c5_unknown_session_ops_witness :
    get_session emptyStore "nope" = none ∧
    append_history emptyStore "nope" "user" "hi" 0 = .error "unknown session" ∧
    set_session_field emptyStore "nope" "k" "v" = .error "unknown session" :=
  c5_unknown_session_ops emptyStore "nope" "user" "hi" "k" "v" 0 rfl

/-! ## C8: the job-manager state machine -/

/-- C8 counterexample: a job whose status is `done` (terminal per the
claim) is flipped to `paused` by a subsequent `pause_job`, which returns
`True`. -/
theorem c8_counterexample :
    get_status (jobsSet "job1" .done emptyJobs) "job1" = "done" ∧
    (pause_job (jobsSet "job1" .done emptyJobs) "job1").1 = true ∧
    get_status (pause_job (jobsSet "job1" .done emptyJobs) "job1").2 "job1" = "paused" := by
  refine ⟨by decide, by decide, by decide⟩

/-- C8 amended: `pause_job` flips any registered job to `paused`
regardless of its current status (so `done` and `failed` are not terminal
under `pause_job`); `resume_job` succeeds exactly from `paused` and
otherwise leaves the table unchanged; `get_status` answers `"not_found"`
exactly for unregistered ids. -/
theorem c8_job_state_machine (jobs : Jobs) (job_id : String) :
    (pause_job jobs job_id).1 = (jobs job_id).isSome ∧
    (pause_job jobs job_id).2 job_id = (jobs job_id).map (fun _ => .paused) ∧
    (resume_job jobs job_id).1 = decide (jobs job_id = some .paused) ∧
    (resume_job jobs job_id).2 job_id =
      (jobs job_id).map (fun st => if st = .paused then .running else st) ∧
    (get_status jobs job_id = "not_found" ↔ jobs job_id = none) := by
  cases hj : jobs job_id with
  | none =>
    refine ⟨?_, ?_, ?_, ?_, ?_⟩ <;> simp [pause_job, resume_job, get_status, hj]
  | some st =>
    refine ⟨?_, ?_, ?_, ?_, ?_⟩
    · simp [pause_job, hj]
    · simp [pause_job, hj, jobsSet]
    · cases st <;> simp [resume_job, hj]
    · by_cases hst : st = JobStatus.paused <;> simp [resume_job, hj, jobsSet, hst]
    · cases st <;> simp [get_status, hj, statusStr]

/-! ## C4: the bounded history window -/

theorem append_all_ok :
    ∀ (es : List HEntry) (st : Store) (sid : String) (s : Session), st sid = some s →
      ∃ st', append_all st sid es = .ok st' ∧
        st' sid = some { s with
          history := es.foldl (fun acc e => lastTen (acc ++ [e])) s.history } := by
  intro es
  induction es with
  | nil =>
    intro st sid s h
    exact ⟨st, rfl, h⟩
  | cons e t ih =>
    intro st sid s h
    have h1 : append_history st sid e.role e.text e.ts =
        .ok (storeSet sid { s with history := lastTen (s.history ++ [e]) } st) := by
      unfold append_history
      rw [h]
    obtain ⟨st', hok, hget⟩ := ih (storeSet sid { s with history := lastTen (s.history ++ [e]) } st)
      sid { s with history := lastTen (s.history ++ [e]) } (storeSet_get _ _ _)
    refine ⟨st', ?_, hget⟩
    show (List.foldlM (fun acc e => append_history acc sid e.role e.text e.ts) st (e :: t) :
      Except String Store) = .ok st'
    rw [List.foldlM_cons, h1]
    exact hok

theorem foldl_append_lastTen (es : List HEntry) :
    ∀ (h : List HEntry), h.length ≤ 10 →
      es.foldl (fun acc e => lastTen (acc ++ [e])) h = lastTen (h ++ es) := by
  induction es with
  | nil =>
    intro h hh
    rw [List.foldl_nil, List.append_nil, lastTen_of_le hh]
  | cons e t ih =>
    intro h hh
    rw [List.foldl_cons, ih _ (lastTen_length_le _), lastTen_lastTen_append,
      List.append_assoc, List.singleton_append]

/-- C4: starting from a freshly created session (empty history), a
sequence of `N` successive `append_history` calls leaves a stored history
of length `min N 10` holding exactly the most recent appended entries, in
append order: the older entries are evicted. -/
theorem c4_history_window (st : Store) (username : String) (now : Nat) (es : List HEntry) :
    ∃ st',
      append_all (create_session st username now).2 (create_session st username now).1 es =
        .ok st' ∧
      ∃ s', st' (create_session st username now).1 = some s' ∧
        s'.history = es.drop (es.length - 10) ∧
        s'.history.length = min es.length 10 := by
  obtain ⟨st', hok, hget⟩ := append_all_ok es (create_session st username now).2
    (create_session st username now).1 ⟨username, [], [], now⟩ (storeSet_get _ _ _)
  have hx : es.foldl (fun acc e => lastTen (acc ++ [e])) ([] : List HEntry) = lastTen es := by
    rw [foldl_append_lastTen es [] (by simp), List.nil_append]
  refine ⟨st', hok, _, hget, ?_, ?_⟩
  · show es.foldl (fun acc e => lastTen (acc ++ [e])) ([] : List HEntry) =
      es.drop (es.length - 10)
    rw [hx]
    rfl
  · show (es.foldl (fun acc e => lastTen (acc ++ [e])) ([] : List HEntry)).length =
      min es.length 10
    rw [hx]
    unfold lastTen
    rw [List.length_drop]
    omega

/-! ## C9: session-id uniqueness -/

/-- C9 counterexample: with the same username and the same whole-second
timestamp, a second `create_session` returns the very same session id,
and its store maps that id to the fresh record — the earlier session's
record (here holding one history entry) is overwritten. -/
theorem c9_counterexample :
    (create_session emptyStore "alice" 1700000000).1 =
      (create_session (storeSet (sessId "alice" 1700000000)
        ⟨"alice", [⟨5, "user", "hi"⟩], [], 1700000000⟩ emptyStore) "alice" 1700000000).1 ∧
    (create_session (storeSet (sessId "alice" 1700000000)
        ⟨"alice", [⟨5, "user", "hi"⟩], [], 1700000000⟩ emptyStore) "alice" 1700000000).2
      (sessId "alice" 1700000000) = some ⟨"alice", [], [], 1700000000⟩ := by
  constructor
  · rfl
  · show storeSet (sessId "alice" 1700000000) ⟨"alice", [], [], 1700000000⟩ _
      (sessId "alice" 1700000000) = _
    rw [storeSet_get]

/-- C9 amended: two `create_session` calls return the same id exactly
when both the username and the whole-second creation timestamp coincide
(in which case the later call overwrites the record); ids differ whenever
the username or the timestamp second differs. -/
theorem c9_session_id_characterization (st1 st2 : Store) (u1 u2 : String) (t1 t2 : Nat) :
    (create_session st1 u1 t1).1 = (create_session st2 u2 t2).1 ↔ u1 = u2 ∧ t1 = t2 := by
  constructor
  · intro h
    have hd := congrArg String.data (show sessId u1 t1 = sessId u2 t2 from h)
    simp only [sessId, String.data_append] at hd
    simp only [List.append_assoc] at hd
    have hd2 : u1.data ++ '_' :: natDecimal t1 = u2.data ++ '_' :: natDecimal t2 := by
      simpa [List.singleton_append] using List.append_cancel_left hd
    have hu := last_sep_unique u1.data u2.data (natDecimal t1) (natDecimal t2)
      (natDecimal_no_underscore t1) (natDecimal_no_underscore t2) hd2
    exact ⟨String.ext hu.1, natDecimal_injective hu.2⟩
  · rintro ⟨rfl, rfl⟩
    rfl

/-! ## C1: parallel result ordering -/

/-- C1 counterexample: with members `[agentA, agentB]` and the completion
order in which `agentB` finishes first (a legal schedule: nothing makes
the first thread win the race), the aggregated string starts with
`agentB`'s result — not with `agentA`'s as the claim requires for every
completion order. -/
theorem c1_counterexample :
    (([⟨1, by decide⟩, ⟨0, by decide⟩] :
        List (Fin ([agentA, agentB] : List AgentM).length)).Perm
      (List.finRange ([agentA, agentB] : List AgentM).length)) ∧
    parallel_handle [agentA, agentB] "s" "m" [⟨1, by decide⟩, ⟨0, by decide⟩] ≠
      String.intercalate agentSep ([agentA, agentB].map (fun a => runMember a "s" "m")) := by
  exact ⟨by decide, by decide⟩

/-- C1 amended: `ParallelAgent.handle` joins the member results with the
fixed separator in thread-completion order; the joined parts are exactly
the members' results (a permutation of the agent-list-order results), but
their order follows the completion order, which need not match the agent
list order. -/
theorem c1_parallel_completion_order (agents : List AgentM) (sid message : String)
    (order : List (Fin agents.length)) (h : order.Perm (List.finRange agents.length)) :
    parallel_handle agents sid message order =
      String.intercalate agentSep (order.map fun i => runMember (agents.get i) sid message) ∧
    (order.map fun i => runMember (agents.get i) sid message).Perm
      (agents.map fun a => runMember a sid message) := by
  refine ⟨rfl, ?_⟩
  have h2 : (List.finRange agents.length).map (fun i => runMember (agents.get i) sid message) =
      agents.map (fun a => runMember a sid message) := by
    rw [show (fun i => runMember (agents.get i) sid message) =
        (fun a => runMember a sid message) ∘ agents.get from rfl, ← List.map_map,
      List.finRange_map_get]
  exact h2 ▸ h.map (fun i => runMember (agents.get i) sid message)

/-- C1 witness: the amended statement at the concrete two-member list and
the reversed completion order. -/
theorem c1_parallel_completion_order_witness :
    parallel_handle [agentA, agentB] "s" "m" [⟨1, by decide⟩, ⟨0, by decide⟩] =
      String.intercalate agentSep
        (([⟨1, by decide⟩, ⟨0, by decide⟩] :
            List (Fin ([agentA, agentB] : List AgentM).length)).map
          fun i => runMember (([agentA, agentB] : List AgentM).get i) "s" "m") ∧
    (([⟨1, by decide⟩, ⟨0, by decide⟩] :
        List (Fin ([agentA, agentB] : List AgentM).length)).map
          fun i => runMember (([agentA, agentB] : List AgentM).get i) "s" "m").Perm
      ([agentA, agentB].map fun a => runMember a "s" "m") :=
  c1_parallel_completion_order [agentA, agentB] "s" "m"
    [⟨1, by decide⟩, ⟨0, by decide⟩] (by decide)

/-! ## C3: parallel error isolation -/

/-- C3: whatever the completion order, `ParallelAgent.handle` returns the
joined parts without raising; a member whose `handle` raises contributes
exactly the `"Agent error: "` string followed by the exception message,
and a member that returns normally contributes its result unchanged. -/
theorem c3_parallel_error_isolation (agents : List AgentM) (sid message e r : String)
    (order : List (Fin agents.length)) (i j : Fin agents.length)
    (hperm : order.Perm (List.finRange agents.length))
    (hi : (agents.get i).handle sid message = .error e)
    (hj : (agents.get j).handle sid message = .ok r) :
    parallel_handle agents sid message order =
      String.intercalate agentSep (order.map fun k => runMember (agents.get k) sid message) ∧
    ("Agent error: " ++ e) ∈ (order.map fun k => runMember (agents.get k) sid message) ∧
    r ∈ (order.map fun k => runMember (agents.get k) sid message) := by
  have hmi : i ∈ order := hperm.mem_iff.2 (List.mem_finRange i)
  have hmj : j ∈ order := hperm.mem_iff.2 (List.mem_finRange j)
  refine ⟨rfl, ?_, ?_⟩
  · exact List.mem_map.2 ⟨i, hmi, by unfold runMember; rw [hi]⟩
  · exact List.mem_map.2 ⟨j, hmj, by unfold runMember; rw [hj]⟩

/-- C3 witness: one normal member and one raising member, with the
identity completion order. -/
theorem c3_parallel_error_isolation_witness :
    parallel_handle [agentA, agentBoom] "s" "m" [⟨0, by decide⟩, ⟨1, by decide⟩] =
      String.intercalate agentSep
        (([⟨0, by decide⟩, ⟨1, by decide⟩] :
            List (Fin ([agentA, agentBoom] : List AgentM).length)).map
          fun k => runMember (([agentA, agentBoom] : List AgentM).get k) "s" "m") ∧
    ("Agent error: " ++ "boom") ∈
      (([⟨0, by decide⟩, ⟨1, by decide⟩] :
          List (Fin ([agentA, agentBoom] : List AgentM).length)).map
        fun k => runMember (([agentA, agentBoom] : List AgentM).get k) "s" "m") ∧
    "alpha" ∈
      (([⟨0, by decide⟩, ⟨1, by decide⟩] :
          List (Fin ([agentA, agentBoom] : List AgentM).length)).map
        fun k => runMember (([agentA, agentBoom] : List AgentM).get k) "s" "m") :=
  c3_parallel_error_isolation [agentA, agentBoom] "s" "m" "boom" "alpha"
    [⟨0, by decide⟩, ⟨1, by decide⟩] ⟨1, by decide⟩ ⟨0, by decide⟩ (by decide) rfl rfl

/-! ## C2: leaf agents and unknown session ids -/

/-- C2 counterexample: `OrientationAgent.handle` on a session id unknown
to the store subscripts `None` and raises a `TypeError` instead of
returning a string. -/
theorem c2_counterexample :
    orientation_handle (fun p => p) [] emptyStore "ghost" "hello" = .error tyErrNone := rfl

/-- C2 amended: for session ids known to the store, all four leaf agents
return a string and never raise; on unknown ids `OrientationAgent` (and
`ProgressAgent` on access-code messages) raise instead, as the
counterexample shows. -/
theorem c2_leaf_agents_known_session (llm : String → String) (db : StudentDB) (st : Store)
    (sid message : String) (s : Session) (hs : get_session st sid = some s) :
    isOkE (orientation_handle llm db st sid message) = true ∧
    isOkE (progress_handle llm db st sid message) = true ∧
    isOkE (techsupport_handle llm sid message) = true ∧
    isOkE (faq_handle sid message) = true := by
  refine ⟨?_, ?_, ?_, ?_⟩
  · unfold orientation_handle
    rw [hs]
    dsimp only
    split <;> rfl
  · unfold progress_handle
    dsimp only
    split
    · rw [hs]
      dsimp only
      split <;> rfl
    · split <;> rfl
  · unfold techsupport_handle
    dsimp only
    split
    · rfl
    · split
      · rfl
      · split <;> rfl
  · rfl

/-- C2 witness: the amended statement at a concrete store holding one
session. -/
theorem c2_leaf_agents_known_session_witness :
    isOkE (orientation_handle (fun p => p) []
      (storeSet "sid1" ⟨"alice", [], [], 0⟩ emptyStore) "sid1" "hello") = true ∧
    isOkE (progress_handle (fun p => p) []
      (storeSet "sid1" ⟨"alice", [], [], 0⟩ emptyStore) "sid1" "hello") = true ∧
    isOkE (techsupport_handle (fun p => p) "sid1" "hello") = true ∧
    isOkE (faq_handle "sid1" "hello") = true :=
  c2_leaf_agents_known_session (fun p => p) []
    (storeSet "sid1" ⟨"alice", [], [], 0⟩ emptyStore) "sid1" "hello"
    ⟨"alice", [], [], 0⟩ rfl

/-! ## C7: the generic-reply classifier -/

/-- C7: a reply is judged generic exactly when it is empty, contains one
of the fixed generic framing phrases (case-insensitively), or is twenty
words or fewer; any longer reply containing no such phrase is judged not
generic. -/
theorem c7_generic_classifier (text : String) :
    looks_generic_assistant text = true ↔
      (text = "" ∨ (∃ p ∈ genericPhrases, strHasSub (pyLower text) p = true) ∨
        (splitWS text).length ≤ 20) := by
  unfold looks_generic_assistant
  by_cases h0 : text = ""
  · simp [h0]
  · have hlen : 0 < text.length := by
      cases text with
      | mk l =>
        cases l with
        | nil => exact absurd rfl h0
        | cons c t => simp [String.length]
    by_cases hp : genericPhrases.any (fun p => strHasSub (pyLower text) p) = true
    · simp only [h0, if_false, hp, if_true, true_iff]
      exact Or.inr (Or.inl (List.any_eq_true.1 hp))
    · by_cases hw : (splitWS text).length ≤ 20
      · simp [h0, hp, hw, hlen]
      · simp [h0, hp, hw, ← List.any_eq_true]

/-! ## C6: the fuzzy knowledge-base matcher -/

theorem scanBest_snd {α : Type} (f : α → ℚ) :
    ∀ (l : List α) (b : Option α) (s : ℚ), (scanBest f l (b, s)).2 = foldMax f l s := by
  intro l
  induction l with
  | nil => intro b s; rfl
  | cons e t ih =>
    intro b s
    show (if s < f e then scanBest f t (some e, f e) else scanBest f t (b, s)).2 =
      foldMax f t (max s (f e))
    by_cases hc : s < f e
    · rw [if_pos hc, ih, max_eq_right hc.le]
    · rw [if_neg hc, ih, max_eq_left (not_lt.1 hc)]

theorem scanBest_of_all_le {α : Type} (f : α → ℚ) :
    ∀ (l : List α) (b : Option α) (s : ℚ), (∀ e ∈ l, f e ≤ s) →
      scanBest f l (b, s) = (b, s) := by
  intro l
  induction l with
  | nil => intro b s _; rfl
  | cons e t ih =>
    intro b s hall
    show (if s < f e then scanBest f t (some e, f e) else scanBest f t (b, s)) = (b, s)
    rw [if_neg (not_lt.2 (hall e (List.mem_cons_self e t)))]
    exact ih b s (fun x hx => hall x (List.mem_cons_of_mem _ hx))

theorem le_foldMax {α : Type} (f : α → ℚ) :
    ∀ (l : List α) (s : ℚ), s ≤ foldMax f l s := by
  intro l
  induction l with
  | nil => intro s; exact le_refl s
  | cons e t ih => intro s; exact le_trans (le_max_left s (f e)) (ih (max s (f e)))

theorem mem_le_foldMax {α : Type} (f : α → ℚ) :
    ∀ (l : List α) (s : ℚ) (e : α), e ∈ l → f e ≤ foldMax f l s := by
  intro l
  induction l with
  | nil => intro s e he; cases he
  | cons a t ih =>
    intro s e he
    rcases List.mem_cons.1 he with rfl | ht
    · exact le_trans (le_max_right s (f e)) (le_foldMax f t _)
    · exact ih _ e ht

theorem scanBest_fst {α : Type} (f : α → ℚ) :
    ∀ (l : List α) (b : Option α) (s : ℚ), s < foldMax f l s →
      (scanBest f l (b, s)).1 = l.find? (fun e => decide (foldMax f l s ≤ f e)) := by
  intro l
  induction l with
  | nil => intro b s hs; exact absurd hs (lt_irrefl s)
  | cons a t ih =>
    intro b s hs
    by_cases hsf : s < f a
    · have hgoal : foldMax f (a :: t) s = foldMax f t (f a) := by
        show foldMax f t (max s (f a)) = _
        rw [max_eq_right hsf.le]
      rw [hgoal]
      show (if s < f a then scanBest f t (some a, f a) else scanBest f t (b, s)).1 =
        List.find? _ (a :: t)
      rw [if_pos hsf]
      by_cases hfe : foldMax f t (f a) ≤ f a
      · have heq : foldMax f t (f a) = f a := le_antisymm hfe (le_foldMax f t (f a))
        rw [List.find?_cons, decide_eq_true hfe,
          scanBest_of_all_le f t (some a) (f a)
            (fun x hx => heq ▸ mem_le_foldMax f t (f a) x hx)]
      · push_neg at hfe
        rw [List.find?_cons, decide_eq_false (not_le.2 hfe)]
        exact ih (some a) (f a) hfe
    · have hgoal : foldMax f (a :: t) s = foldMax f t s := by
        show foldMax f t (max s (f a)) = _
        rw [max_eq_left (not_lt.1 hsf)]
      rw [hgoal] at hs ⊢
      have hfa : f a < foldMax f t s := lt_of_le_of_lt (not_lt.1 hsf) hs
      rw [List.find?_cons, decide_eq_false (not_le.2 hfa)]
      show (if s < f a then scanBest f t (some a, f a) else scanBest f t (b, s)).1 =
        List.find? _ t
      rw [if_neg hsf]
      exact ih b s hs

theorem find?_max_isSome {α : Type} (f : α → ℚ) :
    ∀ (l : List α) (s : ℚ), s < foldMax f l s →
      (l.find? (fun e => decide (foldMax f l s ≤ f e))).isSome = true := by
  intro l
  induction l with
  | nil => intro s hs; exact absurd hs (lt_irrefl s)
  | cons a t ih =>
    intro s hs
    by_cases hfe : foldMax f (a :: t) s ≤ f a
    · rw [List.find?_cons, decide_eq_true hfe]
      rfl
    · push_neg at hfe
      rw [List.find?_cons, decide_eq_false (not_le.2 hfe)]
      have h1 : max s (f a) < foldMax f t (max s (f a)) := max_lt hs hfe
      exact ih (max s (f a)) h1

set_option maxRecDepth 100000 in
set_option maxHeartbeats 1000000 in
/-- C6 counterexample: for the agent name `"FAQAgentAgent"` (which ends
in `"Agent"` twice) and the message `"refund"`, the claim's algorithm —
candidates include the name with the `"Agent"` suffix stripped, i.e.
`"FAQAgent"` — returns the refund-policy KB answer via token overlap,
whereas the source's `replace("Agent", "")` yields the candidate
`"FAQ"`, no knowledge-base list at all, and the result `None`. -/
theorem c6_counterexample :
    best_kb_match "FAQAgentAgent" "refund" = none ∧
    best_kb_match_claim "FAQAgentAgent" "refund" =
      some "Refunds: allowed within 7 days of enrollment if < 10% course completed. Contact support with your username to submit a request." := by
  exact ⟨rfl, by decide⟩

/-- C6 amended: `best_kb_match` behaves exactly as the claim describes —
normalized similarity against every candidate entry, the single (first)
highest-scoring entry's answer when its score reaches the 0.6 threshold,
else the first token-overlap entry, else null — once the candidate list
is corrected to the source's construction: `"Agent"` is appended only
when the name does not already end in `"Agent"`, and for names ending in
`"Agent"` every occurrence of `"Agent"` is removed rather than only the
suffix. -/
theorem c6_best_kb_match_matches_description (agent_name message : String) :
    best_kb_match agent_name message = best_kb_match_amended agent_name message := by
  unfold best_kb_match best_kb_match_amended kb_match_described
  by_cases h0 : message = ""
  · simp [h0]
  · simp only [h0, if_false]
    set mnorm := pyLower (pyStrip message) with hmn
    set entries := (finalCandidates agent_name).flatMap kbEntriesFor with hent
    set f := kbScore mnorm with hf
    have hsnd := scanBest_snd f entries none 0
    by_cases hc : mkRat 3 5 ≤ foldMax f entries 0
    · have h0m : (0 : ℚ) < foldMax f entries 0 :=
        lt_of_lt_of_le (show (0 : ℚ) < mkRat 3 5 by decide) hc
      have hfst := scanBest_fst f entries none 0 h0m
      obtain ⟨e, he⟩ := Option.isSome_iff_exists.1 (find?_max_isSome f entries 0 h0m)
      rw [hfst, he]
      dsimp only
      rw [hsnd, if_pos hc, if_pos hc]
      rfl
    · rw [if_neg hc]
      cases hp1 : (scanBest f entries (none, 0)).1 with
      | none => rfl
      | some e =>
        dsimp only
        rw [hsnd, if_neg hc]

end StudentSupport
